import Mathlib

/-!
Verification development for the FileAlchemy conversion-orchestration core.

The definitions below are a shallow embedding of the JavaScript source:
the static format tables and lookup helpers from the conversion data
module, the remote-client result shaping and category lookup from
conversionApi (ConversionApi), the mock fallback (MockConversionApi),
the availability-caching dispatcher (SmartConversionService), the status
polling loop, the session reducer (appReducer) and the file-handling
hook operations (useConversion).  JavaScript numbers are modelled as
rationals, Math.random as an explicit stream of rational draws in the
unit interval, strings as Lean strings operated on through their
character lists, and undefined/null as Option.
-/

namespace FileAlchemy

/-- Embedding of JavaScript String.prototype.toUpperCase, acting on the
character list of the string. -/
def jsToUpper (s : String) : String :=
  ⟨s.data.map Char.toUpper⟩

/-- Embedding of JavaScript String.prototype.toLowerCase, acting on the
character list of the string. -/
def jsToLower (s : String) : String :=
  ⟨s.data.map Char.toLower⟩

/-- Embedding of JavaScript String.prototype.startsWith. -/
def jsStartsWith (s pre : String) : Bool :=
  pre.data.isPrefixOf s.data

/-- One category entry of the static category table (conversion data
module, conversionCategories values): display name, icon, description,
color token and the ordered member-format list. -/
structure Category where
  name : String
  icon : String
  description : String
  color : String
  formats : List String
deriving DecidableEq

/-- The static category table, as the ordered key-value list of the
conversionCategories object literal. -/
def conversionCategories : List (String × Category) :=
  [("images",
    { name := "Images", icon := "🖼️",
      description := "Convert between image formats",
      color := "from-blue-500 to-purple-600",
      formats := ["JPEG", "PNG", "WEBP", "BMP", "TIFF", "GIF", "SVG", "ICO", "HEIC"] }),
   ("documents",
    { name := "Documents", icon := "📄",
      description := "Convert documents and text files",
      color := "from-green-500 to-blue-600",
      formats := ["PDF", "DOCX", "TXT", "HTML", "RTF", "XLSX", "CSV", "PPTX", "ODT", "ODS", "ODP"] }),
   ("video",
    { name := "Video", icon := "🎥",
      description := "Convert video files and formats",
      color := "from-purple-500 to-pink-600",
      formats := ["MP4", "AVI", "MOV", "MKV", "WMV", "WEBM", "GIF"] }),
   ("audio",
    { name := "Audio", icon := "🎵",
      description := "Convert audio files and formats",
      color := "from-pink-500 to-red-600",
      formats := ["MP3", "WAV", "AAC", "FLAC", "OGG"] }),
   ("archives",
    { name := "Archives", icon := "📦",
      description := "Extract and compress archives",
      color := "from-yellow-500 to-orange-600",
      formats := ["ZIP", "RAR", "7Z", "TAR", "GZ"] }),
   ("other",
    { name := "Other", icon := "⚡",
      description := "Additional conversion tools",
      color := "from-gray-500 to-blue-600",
      formats := ["JSON", "XML", "YAML", "CSV"] })]

/-- The static compatibility table, as the ordered key-value list of the
supportedConversions object literal: source format to declared target
formats. -/
def supportedConversions : List (String × List String) :=
  [("JPEG", ["PNG", "WEBP", "BMP", "TIFF", "GIF"]),
   ("PNG", ["JPEG", "WEBP", "BMP", "TIFF", "GIF", "ICO"]),
   ("WEBP", ["JPEG", "PNG", "BMP", "TIFF"]),
   ("BMP", ["JPEG", "PNG", "WEBP", "TIFF"]),
   ("TIFF", ["JPEG", "PNG", "WEBP", "BMP"]),
   ("GIF", ["JPEG", "PNG", "WEBP", "MP4", "WEBM"]),
   ("SVG", ["PNG", "JPEG"]),
   ("ICO", ["PNG", "JPEG"]),
   ("HEIC", ["JPEG", "PNG"]),
   ("PDF", ["DOCX", "TXT", "HTML", "RTF", "JPEG", "PNG"]),
   ("DOCX", ["PDF", "TXT", "RTF", "HTML", "ODT"]),
   ("TXT", ["DOCX", "PDF", "HTML"]),
   ("HTML", ["PDF", "DOCX", "TXT"]),
   ("RTF", ["DOCX", "PDF", "TXT"]),
   ("XLSX", ["CSV", "PDF", "TXT"]),
   ("CSV", ["XLSX", "PDF", "TXT", "JSON"]),
   ("JSON", ["CSV", "XLSX"]),
   ("PPTX", ["PDF", "JPEG", "ODP"]),
   ("MP4", ["AVI", "MOV", "MKV", "WMV", "WEBM", "GIF"]),
   ("AVI", ["MP4", "MOV", "MKV", "WMV"]),
   ("MOV", ["MP4", "AVI", "MKV", "WMV"]),
   ("MKV", ["MP4", "AVI", "MOV", "WMV"]),
   ("WMV", ["MP4", "AVI", "MOV", "MKV"]),
   ("WEBM", ["MP4", "AVI", "MOV"]),
   ("MP3", ["WAV", "AAC", "FLAC", "OGG"]),
   ("WAV", ["MP3", "AAC", "FLAC", "OGG"]),
   ("AAC", ["MP3", "WAV", "FLAC", "OGG"]),
   ("FLAC", ["MP3", "WAV", "AAC", "OGG"]),
   ("OGG", ["MP3", "WAV", "AAC", "FLAC"]),
   ("ZIP", ["7Z", "TAR", "GZ"]),
   ("RAR", ["ZIP", "7Z", "TAR", "GZ"]),
   ("7Z", ["ZIP", "TAR", "GZ"]),
   ("TAR", ["ZIP", "7Z", "GZ"]),
   ("GZ", ["ZIP", "7Z", "TAR"])]

/-- Property lookup on the supportedConversions object followed by the
JavaScript default `or empty list`, as performed at the use site
(supportedConversions of the source format, defaulting to the empty
list). -/
def targetsFor (format : String) : List String :=
  ((supportedConversions.find? (fun p => p.1 == format)).map Prod.snd).getD []

/-- A format is known when some category of the static category table
declares it. -/
def isKnownFormat (f : String) : Bool :=
  conversionCategories.any (fun p => f ∈ p.2.formats)

/-- getCategoryByFormat from the conversion data module: scan the
category table in declaration order and return the first category whose
format list includes the uppercased format, defaulting to other. -/
def getCategoryByFormat (format : String) : String :=
  match conversionCategories.find? (fun p => decide (jsToUpper format ∈ p.2.formats)) with
  | some p => p.1
  | none => "other"

/-- getFormatIcon from the conversion data module. -/
def getFormatIcon (format : String) : String :=
  match conversionCategories.find? (fun p => p.1 == getCategoryByFormat format) with
  | some p => p.2.icon
  | none => ""

/-- isMultiPageConversion from the conversion data module: PDF to JPEG
or PNG results in multiple files packaged in a ZIP. -/
def isMultiPageConversion (sourceFormat targetFormat : String) : Bool :=
  jsToUpper sourceFormat == "PDF" && decide (jsToUpper targetFormat ∈ ["JPEG", "PNG"])

/-- ConversionApi.getCategoryFromFormat: test hard-coded per-category
format lists against the uppercased format, defaulting to other. -/
def getCategoryFromFormat (format : String) : String :=
  let imageFormats := ["JPEG", "PNG", "WEBP", "BMP", "TIFF", "GIF", "SVG", "ICO", "HEIC"]
  let documentFormats := ["PDF", "DOCX", "TXT", "HTML", "RTF", "XLSX", "CSV", "PPTX", "ODT", "ODS", "ODP"]
  let videoFormats := ["MP4", "AVI", "MOV", "MKV", "WMV", "WEBM"]
  let audioFormats := ["MP3", "WAV", "AAC", "FLAC", "OGG"]
  let archiveFormats := ["ZIP", "RAR", "7Z", "TAR", "GZ"]
  let upperFormat := jsToUpper format
  if upperFormat ∈ imageFormats then "images"
  else if upperFormat ∈ documentFormats then "documents"
  else if upperFormat ∈ videoFormats then "video"
  else if upperFormat ∈ audioFormats then "audio"
  else if upperFormat ∈ archiveFormats then "archives"
  else "other"

/-- A browser File as far as the orchestration code inspects it: name,
MIME type and byte size. -/
structure JsFile where
  name : String
  type : String
  size : ℕ
deriving DecidableEq

/-- One per-file conversion result, in the shape produced by both the
real client and the mock fallback.  The original-file reference is an
Option because the real client recovers it with Array.prototype.find,
which can come back undefined. -/
structure FileResult where
  originalFile : Option JsFile
  convertedFileName : String
  size : ℤ
  success : Bool
deriving DecidableEq

/-- The conversion record draft (conversionData) packaged with every
outcome for the history and analytics sink. -/
structure ConversionData where
  sourceFormat : String
  targetFormat : String
  category : String
  success : Bool
  successfulFiles : ℕ
  failedFiles : ℕ
  backendUsed : String
deriving DecidableEq

/-- The object returned by a convertFiles call that returns normally:
top-level success flag, per-file results, the user-facing message and
the conversion record draft. -/
structure ConversionOutcome where
  success : Bool
  results : List FileResult
  message : String
  conversionData : ConversionData
deriving DecidableEq

/-- JavaScript Math.round on rationals: floor of the argument plus one
half. -/
def jsRound (q : ℚ) : ℤ :=
  ⌊q + 1 / 2⌋

/-- The match of the regular expression dot, one-or-more characters
other than slash and dot, end-of-string, on a character list: splits the
name into the part before the final dot and the extension after it, or
returns none when the expression does not match. -/
def extSplit (s : List Char) : Option (List Char × List Char) :=
  let r := s.reverse
  let suf := r.takeWhile (fun c => !(c == '.' || c == '/'))
  match r.drop suf.length with
  | '.' :: restRev =>
      if suf.isEmpty then none else some (restRev.reverse, suf.reverse)
  | _ => none

/-- The renaming performed by the mock fallback: replace the match of
the extension expression with a dot followed by the lowercased target
format, leaving the name unchanged when there is no match. -/
def convertedNameOf (name : String) (targetFormat : String) : String :=
  match extSplit name.data with
  | some (pre, _) => ⟨pre ++ '.' :: (jsToLower targetFormat).data⟩
  | none => name

/-- The per-file mock result of MockConversionApi.convertFiles for the
file at loop index i.  The two Math.random draws of the loop body are
taken in program order from the stream: draw 2i for the synthetic size,
draw 2i+1 for the success flag. -/
def mockResult (targetFormat : String) (rand : ℕ → ℚ) (i : ℕ) (file : JsFile) : FileResult :=
  { originalFile := some file,
    convertedFileName := convertedNameOf file.name targetFormat,
    size := jsRound ((file.size : ℚ) * (7 / 10 + rand (2 * i) * (6 / 10))),
    success := decide (rand (2 * i + 1) > 1 / 20) }

/-- The result list built by the for loop of
MockConversionApi.convertFiles, starting at loop index i. -/
def mockResultsFrom (targetFormat : String) (rand : ℕ → ℚ) : ℕ → List JsFile → List FileResult
  | _, [] => []
  | i, f :: fs => mockResult targetFormat rand i f :: mockResultsFrom targetFormat rand (i + 1) fs

namespace MockConversionApi

/-- MockConversionApi.convertFiles: synthesize one result per input
file, then package the outcome with the success count, the message and
the conversion record draft tagged backendUsed mock.  The top-level
success field is the literal true of the source. -/
def convertFiles (files : List JsFile) (sourceFormat targetFormat : String)
    (rand : ℕ → ℚ) : ConversionOutcome :=
  let results := mockResultsFrom targetFormat rand 0 files
  let successfulFiles := (results.filter (fun r => r.success)).length
  let failedFiles := results.length - successfulFiles
  { success := true,
    results := results,
    message := "Successfully converted " ++ toString successfulFiles ++ " of " ++
      toString files.length ++ " files",
    conversionData :=
      { sourceFormat := sourceFormat,
        targetFormat := targetFormat,
        category := getCategoryFromFormat sourceFormat,
        success := decide (0 < successfulFiles),
        successfulFiles := successfulFiles,
        failedFiles := failedFiles,
        backendUsed := "mock" } }

end MockConversionApi

/-- One entry of the results array of a completed status payload, in
the shape returned by the backend. -/
structure ServerItem where
  original_filename : String
  converted_filename : String
  download_url : Option String
  size : ℤ
  success : Bool
deriving DecidableEq

namespace ConversionApi

/-- The normal-return path of ConversionApi.convertFiles, given the
server result entries of the completed status payload: map every entry
back to its input file by filename, count successes and package the
outcome with the conversion record draft tagged backendUsed api.  The
top-level success field is the literal true of the source. -/
def convertFilesCompleted (files : List JsFile) (sourceFormat targetFormat : String)
    (items : List ServerItem) : ConversionOutcome :=
  let processedResults := items.map (fun item =>
    { originalFile := files.find? (fun f => f.name == item.original_filename),
      convertedFileName := item.converted_filename,
      size := item.size,
      success := item.success : FileResult })
  let successfulFiles := (processedResults.filter (fun r => r.success)).length
  let failedFiles := processedResults.length - successfulFiles
  { success := true,
    results := processedResults,
    message := "Successfully converted " ++ toString successfulFiles ++ " of " ++
      toString processedResults.length ++ " files",
    conversionData :=
      { sourceFormat := sourceFormat,
        targetFormat := targetFormat,
        category := getCategoryFromFormat sourceFormat,
        success := decide (0 < successfulFiles),
        successfulFiles := successfulFiles,
        failedFiles := failedFiles,
        backendUsed := "api" } }

end ConversionApi

/-- A status payload returned by the status endpoint.  error_message is
an Option because the field may be missing from the JSON body. -/
structure StatusData where
  status : String
  progress : ℕ
  error_message : Option String
deriving DecidableEq

/-- What one iteration of the polling loop decides to do. -/
inductive PollStep where
  | resolve : StatusData → PollStep
  | reject : String → PollStep
  | continuePolling : PollStep
deriving DecidableEq

/-- The JavaScript or-default applied to the failed-status error
message: error_message or the generic text, where both a missing field
and an empty string are falsy. -/
def failedMessage (em : Option String) : String :=
  match em with
  | some s => if s.isEmpty then "Conversion failed" else s
  | none => "Conversion failed"

namespace ConversionApi

/-- One iteration of ConversionApi.pollConversionStatus on the status
payload it just fetched: resolve on completed, reject with the
or-defaulted error message on failed, poll again on processing or
pending, and reject with the unknown-status message otherwise. -/
def pollStep (sd : StatusData) : PollStep :=
  if sd.status == "completed" then PollStep.resolve sd
  else if sd.status == "failed" then PollStep.reject (failedMessage sd.error_message)
  else if sd.status == "processing" || sd.status == "pending" then PollStep.continuePolling
  else PollStep.reject ("Unknown status: " ++ sd.status)

/-- The polling loop run against a finite sequence of successive status
payloads: none when the sequence ran out while the loop was still
polling, otherwise the resolution or rejection it settled on. -/
def pollConversionStatus : List StatusData → Option (Except String StatusData)
  | [] => none
  | sd :: rest =>
    match pollStep sd with
    | PollStep.resolve d => some (Except.ok d)
    | PollStep.reject m => some (Except.error m)
    | PollStep.continuePolling => pollConversionStatus rest

end ConversionApi

instance exceptDecEq {α β : Type} [DecidableEq α] [DecidableEq β] :
    DecidableEq (Except α β) := fun x y =>
  match x, y with
  | Except.ok a, Except.ok b =>
      if h : a = b then isTrue (by rw [h]) else isFalse (fun hh => h (Except.ok.inj hh))
  | Except.error a, Except.error b =>
      if h : a = b then isTrue (by rw [h]) else isFalse (fun hh => h (Except.error.inj hh))
  | Except.ok _, Except.error _ => isFalse (fun hh => Except.noConfusion hh)
  | Except.error _, Except.ok _ => isFalse (fun hh => Except.noConfusion hh)

/-- The environment of one SmartConversionService.convertFiles call:
what the health probe would report if consulted, what the real client
would do if attempted, and the outcome the mock fallback would
produce. -/
structure CallEnv where
  health : Bool
  real : Except String ConversionOutcome
  mock : ConversionOutcome
deriving DecidableEq

/-- Observable record of one SmartConversionService.convertFiles call:
whether the health probe ran, whether the real client was invoked,
whether the mock fallback produced the returned outcome, and the
returned outcome. -/
structure CallLog where
  probed : Bool
  realAttempted : Bool
  usedMock : Bool
  result : ConversionOutcome
deriving DecidableEq

/-- The log of a call fully served by the mock fallback without probing
or touching the real client. -/
def mockOnlyLog (env : CallEnv) : CallLog :=
  { probed := false, realAttempted := false, usedMock := true, result := env.mock }

namespace SmartConversionService

/-- One SmartConversionService.convertFiles call as a transition on the
cached backendAvailable field (none models the initial null): run
checkBackendAvailability, which probes only while the cache is null,
then either attempt the real client, downgrading the cache to false and
returning the mock outcome when the attempt throws, or go straight to
the mock fallback. -/
def convertFilesCall (avail : Option Bool) (env : CallEnv) : CallLog × Option Bool :=
  match avail with
  | some true =>
    match env.real with
    | Except.ok r =>
        ({ probed := false, realAttempted := true, usedMock := false, result := r }, some true)
    | Except.error _ =>
        ({ probed := false, realAttempted := true, usedMock := true, result := env.mock }, some false)
  | some false => (mockOnlyLog env, some false)
  | none =>
    if env.health then
      match env.real with
      | Except.ok r =>
          ({ probed := true, realAttempted := true, usedMock := false, result := r }, some true)
      | Except.error _ =>
          ({ probed := true, realAttempted := true, usedMock := true, result := env.mock }, some false)
    else
      ({ probed := true, realAttempted := false, usedMock := true, result := env.mock }, some false)

/-- A session of successive convertFiles calls threading the cached
availability, returning the call logs and the final cache value. -/
def runSession (avail : Option Bool) : List CallEnv → List CallLog × Option Bool
  | [] => ([], avail)
  | e :: es =>
    let step := convertFilesCall avail e
    let rest := runSession step.2 es
    (step.1 :: rest.1, rest.2)

end SmartConversionService

/-- The session fields of the app-context reducer state that the
conversion workflow touches. -/
structure AppState where
  selectedCategory : Option String
  sourceFormat : Option String
  targetFormat : Option String
  selectedFiles : List JsFile
  previewUrls : List (Option String)
  isConverting : Bool
  progress : ℕ
  conversionResults : List FileResult
deriving DecidableEq

/-- The initial reducer state: no selection, empty file and preview
lists, idle conversion status. -/
def initialState : AppState :=
  { selectedCategory := none,
    sourceFormat := none,
    targetFormat := none,
    selectedFiles := [],
    previewUrls := [],
    isConverting := false,
    progress := 0,
    conversionResults := [] }

/-- The reducer actions that touch the conversion session.  For
SET_FILES and ADD_FILES the previews component is an Option because the
reducer applies the or-empty-list default to a missing payload field. -/
inductive AppAction where
  | setConversion : Option String → Option String → Option String → AppAction
  | setFiles : List JsFile → Option (List (Option String)) → AppAction
  | addFiles : List JsFile → Option (List (Option String)) → AppAction
  | removeFile : ℕ → AppAction
  | clearFiles : AppAction
  | startConversion : AppAction
  | updateProgress : ℕ → AppAction
  | completeConversion : List FileResult → AppAction
  | resetConversion : AppAction
  | resetConversionKeepCategory : AppAction

/-- Array.prototype.filter with the index-is-not-i predicate, as the
REMOVE_FILE case applies it: keep every element whose index differs
from i. -/
def removeIdxJs {α : Type} (l : List α) (i : ℕ) : List α :=
  (l.enum.filter (fun p => p.1 != i)).map Prod.snd

/-- The appReducer cases for the conversion session. -/
def appReducer (state : AppState) (action : AppAction) : AppState :=
  match action with
  | AppAction.setConversion c sf tf =>
      { state with selectedCategory := c, sourceFormat := sf, targetFormat := tf }
  | AppAction.setFiles files previews =>
      { state with selectedFiles := files, previewUrls := previews.getD [] }
  | AppAction.addFiles files previews =>
      { state with selectedFiles := state.selectedFiles ++ files,
                   previewUrls := state.previewUrls ++ previews.getD [] }
  | AppAction.removeFile i =>
      { state with selectedFiles := removeIdxJs state.selectedFiles i,
                   previewUrls := removeIdxJs state.previewUrls i }
  | AppAction.clearFiles =>
      { state with selectedFiles := [], previewUrls := [], conversionResults := [] }
  | AppAction.startConversion =>
      { state with isConverting := true, progress := 0, conversionResults := [] }
  | AppAction.updateProgress p =>
      { state with progress := p }
  | AppAction.completeConversion rs =>
      { state with isConverting := false, progress := 100, conversionResults := rs }
  | AppAction.resetConversion =>
      { state with selectedCategory := none, sourceFormat := none, targetFormat := none,
                   selectedFiles := [], previewUrls := [], isConverting := false,
                   progress := 0, conversionResults := [] }
  | AppAction.resetConversionKeepCategory =>
      { state with sourceFormat := none, targetFormat := none,
                   selectedFiles := [], previewUrls := [], isConverting := false,
                   progress := 0, conversionResults := [] }

namespace useConversion

/-- generatePreviewUrls from the useConversion hook: an object URL for
every image file, null for every other file.  The browser call
URL.createObjectURL is modelled by the external function newUrl. -/
def generatePreviewUrls (newUrl : JsFile → String) (files : List JsFile) :
    List (Option String) :=
  files.map (fun file =>
    if jsStartsWith file.type "image/" then some (newUrl file) else none)

/-- The addFiles hook operation: generate previews for the new files
and dispatch ADD_FILES with both. -/
def addFiles (newUrl : JsFile → String) (s : AppState) (files : List JsFile) : AppState :=
  appReducer s (AppAction.addFiles files (some (generatePreviewUrls newUrl files)))

/-- The setFiles hook operation: generate previews for the files and
dispatch SET_FILES with both. -/
def setFiles (newUrl : JsFile → String) (s : AppState) (files : List JsFile) : AppState :=
  appReducer s (AppAction.setFiles files (some (generatePreviewUrls newUrl files)))

/-- The removeFile hook operation: revoke the object URL at the index
when the entry is truthy, then dispatch REMOVE_FILE.  The second
component lists the URLs passed to URL.revokeObjectURL, in order. -/
def removeFile (s : AppState) (i : ℕ) : AppState × List String :=
  (appReducer s (AppAction.removeFile i),
   match s.previewUrls.get? i with
   | some (some u) => if u.isEmpty then [] else [u]
   | _ => [])

/-- The URLs a forEach revoke-if-truthy pass over the preview list
hands to URL.revokeObjectURL. -/
def revokeAll (previews : List (Option String)) : List String :=
  (previews.filterMap id).filter (fun u => !u.isEmpty)

/-- The clearFiles hook operation: revoke every truthy preview URL and
dispatch CLEAR_FILES. -/
def clearFiles (s : AppState) : AppState × List String :=
  (appReducer s AppAction.clearFiles, revokeAll s.previewUrls)

/-- The resetConversion hook operation: revoke every truthy preview URL
and dispatch RESET_CONVERSION. -/
def resetConversion (s : AppState) : AppState × List String :=
  (appReducer s AppAction.resetConversion, revokeAll s.previewUrls)

/-- The resetConversionKeepCategory hook operation. -/
def resetConversionKeepCategory (s : AppState) : AppState × List String :=
  (appReducer s AppAction.resetConversionKeepCategory, revokeAll s.previewUrls)

/-- Session states reachable from the initial reducer state through the
operations the useConversion hook exposes, with URL.createObjectURL
modelled by newUrl.  File and preview lists are mutated only through
these operations in the source. -/
inductive Reach (newUrl : JsFile → String) : AppState → Prop where
  | init : Reach newUrl initialState
  | add {s} (files : List JsFile) : Reach newUrl s → Reach newUrl (addFiles newUrl s files)
  | set {s} (files : List JsFile) : Reach newUrl s → Reach newUrl (setFiles newUrl s files)
  | remove {s} (i : ℕ) : Reach newUrl s → Reach newUrl (removeFile s i).1
  | clear {s} : Reach newUrl s → Reach newUrl (clearFiles s).1
  | reset {s} : Reach newUrl s → Reach newUrl (resetConversion s).1
  | resetKeep {s} : Reach newUrl s → Reach newUrl (resetConversionKeepCategory s).1
  | setConv {s} (c sf tf : Option String) :
      Reach newUrl s → Reach newUrl (appReducer s (AppAction.setConversion c sf tf))
  | start {s} : Reach newUrl s → Reach newUrl (appReducer s AppAction.startConversion)
  | prog {s} (p : ℕ) : Reach newUrl s → Reach newUrl (appReducer s (AppAction.updateProgress p))
  | complete {s} (rs : List FileResult) :
      Reach newUrl s → Reach newUrl (appReducer s (AppAction.completeConversion rs))

end useConversion

/-! Claim theorems. -/

/-- Claim C6, as stated, is false: the format GIF is declared by both
the images category and the video category, two distinct categories of
the static category table. -/
theorem C6_counterexample :
    conversionCategories.any (fun p => p.1 == "images" && decide ("GIF" ∈ p.2.formats)) = true ∧
    conversionCategories.any (fun p => p.1 == "video" && decide ("GIF" ∈ p.2.formats)) = true ∧
    ("images" : String) ≠ "video" := by
  decide

/-- Claim C6 (amended): a format declared by two distinct categories of
the static category table is GIF (images and video) or CSV (documents
and other); every other format belongs to exactly one category. -/
theorem C6_category_unique_except_gif_csv :
    (∀ p ∈ conversionCategories, ∀ q ∈ conversionCategories,
      ∀ f ∈ p.2.formats, p.1 ≠ q.1 → f ∈ q.2.formats → f = "GIF" ∨ f = "CSV") ∧
    conversionCategories.any (fun p => p.1 == "documents" && decide ("CSV" ∈ p.2.formats)) = true ∧
    conversionCategories.any (fun p => p.1 == "other" && decide ("CSV" ∈ p.2.formats)) = true := by
  decide

/-- Witness for the amended claim C6 at the concrete duplicated format
GIF shared by the images and video categories. -/
theorem C6_witness : ("GIF" : String) = "GIF" ∨ ("GIF" : String) = "CSV" :=
  C6_category_unique_except_gif_csv.1
    ("images",
     { name := "Images", icon := "🖼️",
       description := "Convert between image formats",
       color := "from-blue-500 to-purple-600",
       formats := ["JPEG", "PNG", "WEBP", "BMP", "TIFF", "GIF", "SVG", "ICO", "HEIC"] })
    (by decide)
    ("video",
     { name := "Video", icon := "🎥",
       description := "Convert video files and formats",
       color := "from-purple-500 to-pink-600",
       formats := ["MP4", "AVI", "MOV", "MKV", "WMV", "WEBM", "GIF"] })
    (by decide) "GIF" (by decide) (by decide) (by decide)

/-- Claim C7: for every format keyed in the static compatibility table,
targetsFor returns a non-empty list all of whose entries are uppercase
known format strings, and for every format the table does not key,
targetsFor returns the empty list. -/
theorem C7_targetsFor_contract :
    (∀ p ∈ supportedConversions, targetsFor p.1 ≠ [] ∧
      ∀ t ∈ targetsFor p.1, jsToUpper t = t ∧ isKnownFormat t = true) ∧
    (∀ format : String, supportedConversions.find? (fun p => p.1 == format) = none →
      targetsFor format = []) := by
  refine ⟨by decide, ?_⟩
  intro format h
  simp [targetsFor, h]

/-- Witness for claim C7: the known source format JPEG has a non-empty
target list, and the unknown format UNKNOWNFMT gets the empty list. -/
theorem C7_witness :
    targetsFor "JPEG" ≠ [] ∧ targetsFor "UNKNOWNFMT" = [] :=
  ⟨(C7_targetsFor_contract.1 ("JPEG", ["PNG", "WEBP", "BMP", "TIFF", "GIF"]) (by decide)).1,
   C7_targetsFor_contract.2 "UNKNOWNFMT" (by decide)⟩

/-- Claim C9: isMultiPageConversion holds exactly when the source
uppercases to PDF and the target uppercases to JPEG or PNG; in
particular PDF to PNG is flagged while PDF to DOCX and JPEG to PNG are
not. -/
theorem C9_isMultiPageConversion_spec :
    (∀ s t : String, isMultiPageConversion s t = true ↔
      (jsToUpper s = "PDF" ∧ (jsToUpper t = "JPEG" ∨ jsToUpper t = "PNG"))) ∧
    isMultiPageConversion "PDF" "PNG" = true ∧
    isMultiPageConversion "PDF" "DOCX" = false ∧
    isMultiPageConversion "JPEG" "PNG" = false := by
  refine ⟨?_, by decide, by decide, by decide⟩
  intro s t
  simp [isMultiPageConversion]

/-- Every format string occurring in either category-lookup
implementation, collected for case analysis. -/
def allKnownFormatStrings : List String :=
  ["JPEG", "PNG", "WEBP", "BMP", "TIFF", "GIF", "SVG", "ICO", "HEIC",
   "PDF", "DOCX", "TXT", "HTML", "RTF", "XLSX", "CSV", "PPTX", "ODT", "ODS", "ODP",
   "MP4", "AVI", "MOV", "MKV", "WMV", "WEBM",
   "MP3", "WAV", "AAC", "FLAC", "OGG",
   "ZIP", "RAR", "7Z", "TAR", "GZ",
   "JSON", "XML", "YAML"]

/-- Claim C10: the table-scanning lookup getCategoryByFormat and the
hard-coded lookup ConversionApi.getCategoryFromFormat agree on every
format string, both defaulting to other on formats no category
declares. -/
theorem C10_category_lookups_agree (format : String) :
    getCategoryByFormat format = getCategoryFromFormat format := by
  simp only [getCategoryByFormat, getCategoryFromFormat]
  generalize jsToUpper format = u
  by_cases h : u ∈ allKnownFormatStrings
  · simp only [allKnownFormatStrings] at h
    fin_cases h <;> decide
  · have h1 : u ∉ ["JPEG", "PNG", "WEBP", "BMP", "TIFF", "GIF", "SVG", "ICO", "HEIC"] :=
      fun hm => h ((by decide :
        ["JPEG", "PNG", "WEBP", "BMP", "TIFF", "GIF", "SVG", "ICO", "HEIC"] ⊆
          allKnownFormatStrings) hm)
    have h2 : u ∉ ["PDF", "DOCX", "TXT", "HTML", "RTF", "XLSX", "CSV", "PPTX", "ODT", "ODS", "ODP"] :=
      fun hm => h ((by decide :
        ["PDF", "DOCX", "TXT", "HTML", "RTF", "XLSX", "CSV", "PPTX", "ODT", "ODS", "ODP"] ⊆
          allKnownFormatStrings) hm)
    have h3 : u ∉ ["MP4", "AVI", "MOV", "MKV", "WMV", "WEBM", "GIF"] :=
      fun hm => h ((by decide :
        ["MP4", "AVI", "MOV", "MKV", "WMV", "WEBM", "GIF"] ⊆ allKnownFormatStrings) hm)
    have h3h : u ∉ ["MP4", "AVI", "MOV", "MKV", "WMV", "WEBM"] :=
      fun hm => h ((by decide :
        ["MP4", "AVI", "MOV", "MKV", "WMV", "WEBM"] ⊆ allKnownFormatStrings) hm)
    have h4 : u ∉ ["MP3", "WAV", "AAC", "FLAC", "OGG"] :=
      fun hm => h ((by decide :
        ["MP3", "WAV", "AAC", "FLAC", "OGG"] ⊆ allKnownFormatStrings) hm)
    have h5 : u ∉ ["ZIP", "RAR", "7Z", "TAR", "GZ"] :=
      fun hm => h ((by decide :
        ["ZIP", "RAR", "7Z", "TAR", "GZ"] ⊆ allKnownFormatStrings) hm)
    have h6 : u ∉ ["JSON", "XML", "YAML", "CSV"] :=
      fun hm => h ((by decide :
        ["JSON", "XML", "YAML", "CSV"] ⊆ allKnownFormatStrings) hm)
    simp [conversionCategories, List.find?, h1, h2, h3, h3h, h4, h5, h6]

/-- Claim C2, as stated, is false on one point: when the server reports
status failed with error_message present but equal to the empty string,
the loop rejects with the generic message instead of the server-reported
message, because the or-default of the source also treats the empty
string as falsy. -/
theorem C2_counterexample :
    ConversionApi.pollStep { status := "failed", progress := 0, error_message := some "" } =
      PollStep.reject "Conversion failed" ∧
    ConversionApi.pollStep { status := "failed", progress := 0, error_message := some "" } ≠
      PollStep.reject "" := by
  decide

/-- Claim C2 (amended): the polling loop resolves with the status
payload exactly when status is completed; on status failed it rejects
with exactly the server-reported error_message when that message is
present and non-empty, and with the generic message when it is absent
or empty; it continues polling exactly when status is processing or
pending, in which case the loop moves on to the next payload; and any
other status value rejects hard with the unknown-status message. -/
theorem C2_poll_contract (sd : StatusData) (rest : List StatusData) :
    (ConversionApi.pollStep sd = PollStep.resolve sd ↔ sd.status = "completed") ∧
    (sd.status = "failed" → ∀ em : String, sd.error_message = some em → em ≠ "" →
      ConversionApi.pollStep sd = PollStep.reject em) ∧
    (sd.status = "failed" → (sd.error_message = none ∨ sd.error_message = some "") →
      ConversionApi.pollStep sd = PollStep.reject "Conversion failed") ∧
    (ConversionApi.pollStep sd = PollStep.continuePolling ↔
      (sd.status = "processing" ∨ sd.status = "pending")) ∧
    (sd.status ≠ "completed" → sd.status ≠ "failed" → sd.status ≠ "processing" →
      sd.status ≠ "pending" →
      ConversionApi.pollStep sd = PollStep.reject ("Unknown status: " ++ sd.status)) ∧
    (ConversionApi.pollStep sd = PollStep.continuePolling →
      ConversionApi.pollConversionStatus (sd :: rest) = ConversionApi.pollConversionStatus rest) ∧
    (sd.status = "completed" →
      ConversionApi.pollConversionStatus (sd :: rest) = some (Except.ok sd)) := by
  obtain ⟨st, pr, em⟩ := sd
  refine ⟨?_, ?_, ?_, ?_, ?_, ?_, ?_⟩
  · by_cases h1 : st = "completed" <;>
      by_cases h2 : st = "failed" <;>
        by_cases h3 : st = "processing" <;>
          by_cases h4 : st = "pending" <;>
            simp_all [ConversionApi.pollStep]
  · intro hf emv hemv hne
    subst hf
    simp only at hemv
    subst hemv
    simp [ConversionApi.pollStep, failedMessage, String.isEmpty_iff, hne]
  · intro hf hem
    subst hf
    rcases hem with hem | hem <;> simp only at hem <;> subst hem
    · simp [ConversionApi.pollStep, failedMessage]
    · simp [ConversionApi.pollStep, failedMessage]
      rfl
  · by_cases h1 : st = "completed" <;>
      by_cases h2 : st = "failed" <;>
        by_cases h3 : st = "processing" <;>
          by_cases h4 : st = "pending" <;>
            simp_all [ConversionApi.pollStep]
  · intro h1 h2 h3 h4
    simp_all [ConversionApi.pollStep]
  · intro hc
    simp only [ConversionApi.pollConversionStatus, hc]
  · intro h1
    subst h1
    simp [ConversionApi.pollConversionStatus, ConversionApi.pollStep]

/-- Witness for the amended claim C2: the end-to-end scenario of the
specification, a failed status payload carrying error_message corrupt
file rejects with exactly that message. -/
theorem C2_witness :
    ConversionApi.pollStep { status := "failed", progress := 0, error_message := some "corrupt file" } =
      PollStep.reject "corrupt file" :=
  (C2_poll_contract { status := "failed", progress := 0, error_message := some "corrupt file" } []).2.1
    rfl "corrupt file" rfl (by decide)

lemma mockResultsFrom_length (t : String) (r : ℕ → ℚ) :
    ∀ (fs : List JsFile) (n : ℕ), (mockResultsFrom t r n fs).length = fs.length := by
  intro fs
  induction fs with
  | nil => intro n; rfl
  | cons f fs ih => intro n; simp [mockResultsFrom, ih]

lemma mockResultsFrom_get? (t : String) (r : ℕ → ℚ) :
    ∀ (fs : List JsFile) (n i : ℕ),
      (mockResultsFrom t r n fs).get? i = (fs.get? i).map (fun f => mockResult t r (n + i) f) := by
  intro fs
  induction fs with
  | nil => intro n i; rfl
  | cons f fs ih =>
    intro n i
    cases i with
    | zero => rfl
    | succ j =>
      have : n + (j + 1) = n + 1 + j := by omega
      simp only [mockResultsFrom, List.get?_cons_succ, this]
      exact ih (n + 1) j

lemma mockResultsFrom_map_originalFile (t : String) (r : ℕ → ℚ) :
    ∀ (fs : List JsFile) (n : ℕ),
      (mockResultsFrom t r n fs).map (fun x => x.originalFile) = fs.map some := by
  intro fs
  induction fs with
  | nil => intro n; rfl
  | cons f fs ih => intro n; simp [mockResultsFrom, mockResult, ih]

lemma exists_success_iff_filter_pos (l : List FileResult) :
    0 < (l.filter (fun r => r.success)).length ↔ ∃ r ∈ l, r.success = true := by
  rw [← List.countP_eq_length_filter]
  exact List.countP_pos_iff

/-- Claim C3, as stated, is false: a three-file mock conversion whose
random draws all fall below the failure threshold returns normally with
every per-file entry failed, yet the top-level success flag of the
returned outcome is the literal true. -/
theorem C3_counterexample :
    (MockConversionApi.convertFiles
      [{ name := "a.jpg", type := "image/jpeg", size := 10 },
       { name := "b.jpg", type := "image/jpeg", size := 20 },
       { name := "c.jpg", type := "image/jpeg", size := 30 }]
      "JPEG" "PNG" (fun _ => 0)).success = true ∧
    (∀ r ∈ (MockConversionApi.convertFiles
      [{ name := "a.jpg", type := "image/jpeg", size := 10 },
       { name := "b.jpg", type := "image/jpeg", size := 20 },
       { name := "c.jpg", type := "image/jpeg", size := 30 }]
      "JPEG" "PNG" (fun _ => 0)).results, r.success = false) := by
  with_unfolding_all decide

/-- Claim C3 (amended): for every batch conversion returning normally,
the top-level success flag of the returned outcome is always the
literal true, while the success flag of the packaged conversion record
is true if and only if at least one per-file result entry succeeded;
this holds for the mock fallback and for the real-client completion
path alike. -/
theorem C3_record_success_iff (files : List JsFile) (sourceFormat targetFormat : String)
    (rand : ℕ → ℚ) (files2 : List JsFile) (src2 tgt2 : String) (items : List ServerItem) :
    (MockConversionApi.convertFiles files sourceFormat targetFormat rand).success = true ∧
    ((MockConversionApi.convertFiles files sourceFormat targetFormat rand).conversionData.success
        = true ↔
      ∃ r ∈ (MockConversionApi.convertFiles files sourceFormat targetFormat rand).results,
        r.success = true) ∧
    (ConversionApi.convertFilesCompleted files2 src2 tgt2 items).success = true ∧
    ((ConversionApi.convertFilesCompleted files2 src2 tgt2 items).conversionData.success = true ↔
      ∃ r ∈ (ConversionApi.convertFilesCompleted files2 src2 tgt2 items).results,
        r.success = true) := by
  refine ⟨rfl, ?_, rfl, ?_⟩
  · simp only [MockConversionApi.convertFiles, decide_eq_true_eq]
    exact exists_success_iff_filter_pos _
  · simp only [ConversionApi.convertFilesCompleted, decide_eq_true_eq]
    exact exists_success_iff_filter_pos _

lemma takeWhile_append_stop (p : Char → Bool) :
    ∀ (l1 : List Char) (x : Char) (l2 : List Char),
      (∀ c ∈ l1, p c = true) → p x = false → (l1 ++ x :: l2).takeWhile p = l1 := by
  intro l1
  induction l1 with
  | nil =>
    intro x l2 _ hx
    simp [List.takeWhile_cons, hx]
  | cons a l1 ih =>
    intro x l2 hall hx
    have ha : p a = true := hall a (List.mem_cons_self a l1)
    simp only [List.cons_append, List.takeWhile_cons, ha, if_true]
    rw [ih x l2 (fun c hc => hall c (List.mem_cons_of_mem a hc)) hx]

lemma extSplit_append (pre ext : List Char) (hne : ext ≠ [])
    (hgood : ∀ c ∈ ext, c ≠ '.' ∧ c ≠ '/') :
    extSplit (pre ++ '.' :: ext) = some (pre, ext) := by
  have hrev : (pre ++ '.' :: ext).reverse = ext.reverse ++ '.' :: pre.reverse := by
    simp [List.reverse_append]
  have hall : ∀ c ∈ ext.reverse, (!(c == '.' || c == '/')) = true := by
    intro c hc
    rcases hgood c (List.mem_reverse.mp hc) with ⟨h1, h2⟩
    simp [h1, h2]
  have hdot : (!(('.' : Char) == '.' || ('.' : Char) == '/')) = false := by decide
  have htake : (ext.reverse ++ '.' :: pre.reverse).takeWhile (fun c => !(c == '.' || c == '/'))
      = ext.reverse := takeWhile_append_stop _ ext.reverse '.' pre.reverse hall hdot
  have hdrop : (ext.reverse ++ '.' :: pre.reverse).drop ext.reverse.length = '.' :: pre.reverse :=
    List.drop_left ext.reverse ('.' :: pre.reverse)
  have hemp : ext.reverse.isEmpty = false := by
    cases hext : ext.reverse with
    | nil => exact absurd (by simpa using congrArg List.reverse hext) hne
    | cons a l => rfl
  simp only [extSplit, hrev, htake, hdrop, hemp, Bool.false_eq_true, if_false,
    List.reverse_reverse]

lemma convertedNameOf_ext (pre ext targetFormat : String) (hne : ext ≠ "")
    (hgood : ∀ c ∈ ext.data, c ≠ '.' ∧ c ≠ '/') :
    convertedNameOf (pre ++ "." ++ ext) targetFormat = pre ++ "." ++ jsToLower targetFormat := by
  have hdata : (pre ++ "." ++ ext).data = pre.data ++ '.' :: ext.data := by
    simp [String.data_append]
  have hnedata : ext.data ≠ [] := by
    intro h
    exact hne (String.ext (by simpa using h))
  have hsplit := extSplit_append pre.data ext.data hnedata hgood
  simp only [convertedNameOf, hdata, hsplit]
  apply String.ext
  simp [String.data_append]

/-- Claim C4: the mock fallback returns one result per input file in
input order, each referencing its own original file, and each converted
filename is the original name with the final-extension match replaced
by the lowercased target format; in particular, for a name of the shape
base dot extension the converted name is base dot lowercased target. -/
theorem C4_mock_results_shape (files : List JsFile) (sourceFormat targetFormat : String)
    (rand : ℕ → ℚ) (_hne : files ≠ []) :
    ((MockConversionApi.convertFiles files sourceFormat targetFormat rand).results.length
        = files.length) ∧
    ((MockConversionApi.convertFiles files sourceFormat targetFormat rand).results.map
        (fun r => r.originalFile) = files.map some) ∧
    (∀ i : ℕ,
      ((MockConversionApi.convertFiles files sourceFormat targetFormat rand).results.get? i).map
          (fun r => r.convertedFileName)
        = (files.get? i).map (fun f => convertedNameOf f.name targetFormat)) ∧
    (∀ pre ext : String, ext ≠ "" → (∀ c ∈ ext.data, c ≠ '.' ∧ c ≠ '/') →
      convertedNameOf (pre ++ "." ++ ext) targetFormat = pre ++ "." ++ jsToLower targetFormat) := by
  refine ⟨?_, ?_, ?_, ?_⟩
  · simpa [MockConversionApi.convertFiles] using mockResultsFrom_length targetFormat rand files 0
  · simpa [MockConversionApi.convertFiles] using
      mockResultsFrom_map_originalFile targetFormat rand files 0
  · intro i
    simp only [MockConversionApi.convertFiles]
    rw [mockResultsFrom_get? targetFormat rand files 0 i]
    cases files.get? i <;> rfl
  · intro pre ext h1 h2
    exact convertedNameOf_ext pre ext targetFormat h1 h2

/-- Witness for claim C4: the two-file example of the specification,
a.jpg and b.jpg converted to target PNG are renamed a.png and b.png,
with the result list aligned to the input list. -/
theorem C4_witness :
    convertedNameOf "a.jpg" "PNG" = "a.png" ∧
    convertedNameOf "b.jpg" "PNG" = "b.png" ∧
    (MockConversionApi.convertFiles
      [{ name := "a.jpg", type := "image/jpeg", size := 10 },
       { name := "b.jpg", type := "image/jpeg", size := 20 }]
      "JPEG" "PNG" (fun _ => 0)).results.map (fun r => r.originalFile)
      = [some { name := "a.jpg", type := "image/jpeg", size := 10 },
         some { name := "b.jpg", type := "image/jpeg", size := 20 }] := by
  have h := C4_mock_results_shape
    [{ name := "a.jpg", type := "image/jpeg", size := 10 },
     { name := "b.jpg", type := "image/jpeg", size := 20 }]
    "JPEG" "PNG" (fun _ => 0) (by decide)
  refine ⟨?_, ?_, ?_⟩
  · have ha := h.2.2.2 "a" "jpg" (by decide) (by decide)
    have : ("a" ++ "." ++ "jpg" : String) = "a.jpg" := by decide
    rw [this] at ha
    rw [ha]
    decide
  · have hb := h.2.2.2 "b" "jpg" (by decide) (by decide)
    have : ("b" ++ "." ++ "jpg" : String) = "b.jpg" := by decide
    rw [this] at hb
    rw [hb]
    decide
  · exact h.2.1

/-- Claim C5, as stated, is false: with input size 3 and the minimal
random draw, the synthesized size is Math.round of 2.1, which is 2,
strictly below 70 percent of the input size; rounding can leave the
stated 70 to 130 percent band. -/
theorem C5_counterexample :
    (MockConversionApi.convertFiles [{ name := "a.jpg", type := "image/jpeg", size := 3 }]
        "JPEG" "PNG" (fun _ => 0)).results.get? 0 =
      some { originalFile := some { name := "a.jpg", type := "image/jpeg", size := 3 },
             convertedFileName := "a.png", size := 2, success := false } ∧
    ((2 : ℚ) < (7 / 10 : ℚ) * 3) := by
  constructor
  · with_unfolding_all decide
  · with_unfolding_all decide

/-- Claim C5 (amended): every synthesized output size is the nearest
integer to inputSize times a factor of the form 0.7 plus 0.6 times a
unit-interval draw, so it exceeds 70 percent of the input size minus
one half and is at most 130 percent of the input size plus one half;
and the per-file success flag holds exactly when the success draw
strictly exceeds 0.05. -/
theorem C5_mock_size_bounds (files : List JsFile) (sourceFormat targetFormat : String)
    (rand : ℕ → ℚ) (hr : ∀ n, 0 ≤ rand n ∧ rand n < 1) (i : ℕ) (f : JsFile)
    (hf : files.get? i = some f) (res : FileResult)
    (hres : (MockConversionApi.convertFiles files sourceFormat targetFormat rand).results.get? i
      = some res) :
    ((7 / 10 : ℚ) * f.size - 1 / 2 < (res.size : ℚ)) ∧
    ((res.size : ℚ) ≤ (13 / 10 : ℚ) * f.size + 1 / 2) ∧
    (res.success = true ↔ (1 / 20 : ℚ) < rand (2 * i + 1)) := by
  have hget : (MockConversionApi.convertFiles files sourceFormat targetFormat rand).results.get? i
      = (files.get? i).map (fun f => mockResult targetFormat rand i f) := by
    simp only [MockConversionApi.convertFiles]
    simpa using mockResultsFrom_get? targetFormat rand files 0 i
  rw [hget, hf] at hres
  have hres2 : res = mockResult targetFormat rand i f := by
    simpa using hres.symm
  subst hres2
  have hs : (0 : ℚ) ≤ (f.size : ℚ) := by positivity
  rcases hr (2 * i) with ⟨hr0, hr1⟩
  set q : ℚ := (f.size : ℚ) * (7 / 10 + rand (2 * i) * (6 / 10)) with hq
  have hsize : (mockResult targetFormat rand i f).size = ⌊q + 1 / 2⌋ := rfl
  have hlow : (7 / 10 : ℚ) * (f.size : ℚ) ≤ q := by
    rw [hq]
    nlinarith [mul_nonneg hs hr0]
  have hhigh : q ≤ (13 / 10 : ℚ) * (f.size : ℚ) := by
    rw [hq]
    nlinarith [mul_nonneg hs (by linarith : (0 : ℚ) ≤ 1 - rand (2 * i))]
  have hfl : (⌊q + 1 / 2⌋ : ℚ) ≤ q + 1 / 2 := Int.floor_le (q + 1 / 2)
  have hfl2 : q + 1 / 2 - 1 < (⌊q + 1 / 2⌋ : ℚ) := Int.sub_one_lt_floor (q + 1 / 2)
  refine ⟨?_, ?_, ?_⟩
  · rw [hsize]
    linarith
  · rw [hsize]
    linarith
  · simp [mockResult]

/-- Witness for the amended claim C5 at a concrete one-file mock
conversion with input size 4 and zero draws: the synthesized size 3
lies within the half-unit-widened band. -/
theorem C5_witness :
    (MockConversionApi.convertFiles [{ name := "a.jpg", type := "image/jpeg", size := 4 }]
        "JPEG" "PNG" (fun _ => 0)).results.get? 0 =
      some { originalFile := some { name := "a.jpg", type := "image/jpeg", size := 4 },
             convertedFileName := "a.png", size := 3, success := false } ∧
    ((7 / 10 : ℚ) * ((4 : ℕ) : ℚ) - 1 / 2 < ((3 : ℤ) : ℚ)) ∧
    (((3 : ℤ) : ℚ) ≤ (13 / 10 : ℚ) * ((4 : ℕ) : ℚ) + 1 / 2) := by
  have heval : (MockConversionApi.convertFiles
      [{ name := "a.jpg", type := "image/jpeg", size := 4 }]
        "JPEG" "PNG" (fun _ => 0)).results.get? 0 =
      some { originalFile := some { name := "a.jpg", type := "image/jpeg", size := 4 },
             convertedFileName := "a.png", size := 3, success := false } := by
    with_unfolding_all decide
  have h := C5_mock_size_bounds [{ name := "a.jpg", type := "image/jpeg", size := 4 }]
    "JPEG" "PNG" (fun _ => 0) (fun _ => ⟨by norm_num, by norm_num⟩) 0
    { name := "a.jpg", type := "image/jpeg", size := 4 } rfl
    { originalFile := some { name := "a.jpg", type := "image/jpeg", size := 4 },
      convertedFileName := "a.png", size := 3, success := false } heval
  exact ⟨heval, h.1, h.2.1⟩

lemma runSession_some_false (envs : List CallEnv) :
    SmartConversionService.runSession (some false) envs = (envs.map mockOnlyLog, some false) := by
  induction envs with
  | nil => rfl
  | cons e es ih =>
    simp [SmartConversionService.runSession, SmartConversionService.convertFilesCall, ih]

lemma convertFilesCall_snd (avail : Option Bool) (env : CallEnv) :
    (SmartConversionService.convertFilesCall avail env).2 = some true ∨
    (SmartConversionService.convertFilesCall avail env).2 = some false := by
  cases avail with
  | none =>
    by_cases hh : env.health <;> cases he : env.real <;>
      simp [SmartConversionService.convertFilesCall, hh, he]
  | some b =>
    cases b <;> cases he : env.real <;>
      simp [SmartConversionService.convertFilesCall, he]

lemma convertFilesCall_some_probed (b : Bool) (env : CallEnv) :
    ((SmartConversionService.convertFilesCall (some b) env).1).probed = false := by
  cases b
  · rfl
  · cases he : env.real <;> simp [SmartConversionService.convertFilesCall, he]

lemma runSession_some_probed_false :
    ∀ (envs : List CallEnv) (b : Bool) (l : CallLog),
      l ∈ (SmartConversionService.runSession (some b) envs).1 → l.probed = false := by
  intro envs
  induction envs with
  | nil => intro b l h; simp [SmartConversionService.runSession] at h
  | cons e es ih =>
    intro b l hl
    simp only [SmartConversionService.runSession, List.mem_cons] at hl
    rcases hl with rfl | hl
    · exact convertFilesCall_some_probed b e
    · rcases convertFilesCall_snd (some b) e with h | h <;> rw [h] at hl
      · exact ih true l hl
      · exact ih false l hl

lemma length_runSession (envs : List CallEnv) (avail : Option Bool) :
    ((SmartConversionService.runSession avail envs).1).length = envs.length := by
  induction envs generalizing avail with
  | nil => rfl
  | cons e es ih => simp [SmartConversionService.runSession, ih]

lemma runSession_downgrade :
    ∀ (envs : List CallEnv) (avail : Option Bool) (i : ℕ) (log : CallLog) (env : CallEnv),
      ((SmartConversionService.runSession avail envs).1).get? i = some log →
      envs.get? i = some env →
      ((log.realAttempted = true ∧ log.usedMock = true) ∨
        (log.probed = true ∧ env.health = false)) →
      (log.usedMock = true ∧ log.result = env.mock ∧
       (SmartConversionService.runSession avail envs).2 = some false ∧
       ∀ j : ℕ, i < j →
         ((SmartConversionService.runSession avail envs).1).get? j
           = (envs.get? j).map mockOnlyLog) := by
  intro envs
  induction envs with
  | nil =>
    intro avail i log env hlog _ _
    simp [SmartConversionService.runSession] at hlog
  | cons e es ih =>
    intro avail i log env hlog henv htrig
    cases i with
    | zero =>
      simp only [SmartConversionService.runSession, List.get?_cons_zero, Option.some.injEq] at hlog henv
      subst henv
      have hrest : ∀ h1 : (SmartConversionService.convertFilesCall avail e).2 = some false,
          (SmartConversionService.runSession avail (e :: es)).2 = some false ∧
          ∀ j : ℕ, 0 < j →
            ((SmartConversionService.runSession avail (e :: es)).1).get? j
              = ((e :: es).get? j).map mockOnlyLog := by
        intro h1
        constructor
        · simp only [SmartConversionService.runSession, h1, runSession_some_false]
        · intro j hj
          obtain ⟨k, rfl⟩ : ∃ k, j = k + 1 := ⟨j - 1, by omega⟩
          simp only [SmartConversionService.runSession, h1, runSession_some_false,
            List.get?_cons_succ, List.get?_map]
      cases avail with
      | some b =>
        cases b with
        | false =>
          rw [show (SmartConversionService.convertFilesCall (some false) e).1
              = mockOnlyLog e from rfl] at hlog
          subst hlog
          rcases htrig with ⟨h1, _⟩ | ⟨h1, _⟩ <;> simp [mockOnlyLog] at h1
        | true =>
          cases he : e.real with
          | ok r =>
            rw [show (SmartConversionService.convertFilesCall (some true) e).1
                = { probed := false, realAttempted := true, usedMock := false, result := r } from
                by simp [SmartConversionService.convertFilesCall, he]] at hlog
            subst hlog
            rcases htrig with ⟨_, h2⟩ | ⟨h1, _⟩
            · simp at h2
            · simp at h1
          | error msg =>
            rw [show (SmartConversionService.convertFilesCall (some true) e).1
                = { probed := false, realAttempted := true, usedMock := true, result := e.mock }
                from by simp [SmartConversionService.convertFilesCall, he]] at hlog
            subst hlog
            have h1 : (SmartConversionService.convertFilesCall (some true) e).2 = some false := by
              simp [SmartConversionService.convertFilesCall, he]
            exact ⟨rfl, rfl, (hrest h1).1, (hrest h1).2⟩
      | none =>
        by_cases hh : e.health
        · cases he : e.real with
          | ok r =>
            rw [show (SmartConversionService.convertFilesCall none e).1
                = { probed := true, realAttempted := true, usedMock := false, result := r } from
                by simp [SmartConversionService.convertFilesCall, he, hh]] at hlog
            subst hlog
            rcases htrig with ⟨_, h2⟩ | ⟨_, h2⟩
            · simp at h2
            · rw [hh] at h2; simp at h2
          | error msg =>
            rw [show (SmartConversionService.convertFilesCall none e).1
                = { probed := true, realAttempted := true, usedMock := true, result := e.mock }
                from by simp [SmartConversionService.convertFilesCall, he, hh]] at hlog
            subst hlog
            have h1 : (SmartConversionService.convertFilesCall none e).2 = some false := by
              simp [SmartConversionService.convertFilesCall, he, hh]
            exact ⟨rfl, rfl, (hrest h1).1, (hrest h1).2⟩
        · rw [show (SmartConversionService.convertFilesCall none e).1
              = { probed := true, realAttempted := false, usedMock := true, result := e.mock }
              from by simp [SmartConversionService.convertFilesCall, hh]] at hlog
          subst hlog
          have h1 : (SmartConversionService.convertFilesCall none e).2 = some false := by
            simp [SmartConversionService.convertFilesCall, hh]
          exact ⟨rfl, rfl, (hrest h1).1, (hrest h1).2⟩
    | succ k =>
      simp only [SmartConversionService.runSession, List.get?_cons_succ] at hlog henv
      have hres := ih (SmartConversionService.convertFilesCall avail e).2 k log env hlog henv htrig
      refine ⟨hres.1, hres.2.1, ?_, ?_⟩
      · simp only [SmartConversionService.runSession]
        exact hres.2.2.1
      · intro j hj
        obtain ⟨m, rfl⟩ : ∃ m, j = m + 1 := ⟨j - 1, by omega⟩
        simp only [SmartConversionService.runSession, List.get?_cons_succ]
        exact hres.2.2.2 m (by omega)

/-- Claim C1: in every SmartConversionService session the health probe
runs at most once; whenever a call either attempted the real client and
fell back to mock (the real attempt threw) or probed an unavailable
backend, that call itself returns the mock outcome, the cached
availability ends up false, and every later call in the session is
served entirely by the mock fallback, never probing nor invoking the
real client again. -/
theorem C1_circuit_breaker (envs : List CallEnv) :
    (((SmartConversionService.runSession none envs).1).length = envs.length) ∧
    (((SmartConversionService.runSession none envs).1).countP (fun l => l.probed) ≤ 1) ∧
    (∀ (i : ℕ) (log : CallLog) (env : CallEnv),
      ((SmartConversionService.runSession none envs).1).get? i = some log →
      envs.get? i = some env →
      ((log.realAttempted = true ∧ log.usedMock = true) ∨
        (log.probed = true ∧ env.health = false)) →
      (log.usedMock = true ∧ log.result = env.mock ∧
       (SmartConversionService.runSession none envs).2 = some false ∧
       ∀ j : ℕ, i < j →
         ((SmartConversionService.runSession none envs).1).get? j
           = (envs.get? j).map mockOnlyLog)) := by
  refine ⟨length_runSession envs none, ?_, ?_⟩
  · cases envs with
    | nil => simp [SmartConversionService.runSession]
    | cons e es =>
      have hzero : ((SmartConversionService.runSession
          (SmartConversionService.convertFilesCall none e).2 es).1).countP
          (fun l => l.probed) = 0 := by
        rw [List.countP_eq_zero]
        intro l hl
        rcases convertFilesCall_snd none e with h | h <;> rw [h] at hl <;>
          simpa using runSession_some_probed_false es _ l hl
      simp only [SmartConversionService.runSession, List.countP_cons, hzero]
      split <;> omega
  · intro i log env hlog henv htrig
    exact runSession_downgrade envs none i log env hlog henv htrig

/-- A minimal concrete conversion outcome used by the claim C1
witness. -/
def emptyOutcome : ConversionOutcome :=
  { success := true, results := [], message := "",
    conversionData :=
      { sourceFormat := "JPEG", targetFormat := "PNG", category := "images",
        success := false, successfulFiles := 0, failedFiles := 0, backendUsed := "mock" } }

/-- Witness for claim C1: a two-call session whose first call probes a
healthy backend and then sees the real client throw; the first call
returns the mock outcome, the cache ends false, and the second call is
served by the mock fallback without probing or touching the real
client. -/
theorem C1_witness :
    ((SmartConversionService.runSession none
      [{ health := true, real := Except.error "network down", mock := emptyOutcome },
       { health := true, real := Except.ok emptyOutcome, mock := emptyOutcome }]).1).get? 1
      = some (mockOnlyLog
          { health := true, real := Except.ok emptyOutcome, mock := emptyOutcome }) ∧
    (SmartConversionService.runSession none
      [{ health := true, real := Except.error "network down", mock := emptyOutcome },
       { health := true, real := Except.ok emptyOutcome, mock := emptyOutcome }]).2
      = some false := by
  have h := (C1_circuit_breaker
    [{ health := true, real := Except.error "network down", mock := emptyOutcome },
     { health := true, real := Except.ok emptyOutcome, mock := emptyOutcome }]).2.2 0
    { probed := true, realAttempted := true, usedMock := true, result := emptyOutcome }
    { health := true, real := Except.error "network down", mock := emptyOutcome }
    (by decide) (by decide) (Or.inl ⟨rfl, rfl⟩)
  refine ⟨?_, h.2.2.1⟩
  have h4 := h.2.2.2 1 (by omega)
  rw [h4]
  decide

lemma enumFrom_filter_ne_small {α : Type} :
    ∀ (l : List α) (n m : ℕ), m < n →
      ((l.enumFrom n).filter (fun p => p.1 != m)).map Prod.snd = l := by
  intro l
  induction l with
  | nil => intro n m _; rfl
  | cons a as ih =>
    intro n m h
    have hne : (((n, a) : ℕ × α).1 != m) = true := by
      simp only [bne_iff_ne, ne_eq]
      omega
    simp only [List.enumFrom, List.filter_cons, hne, if_true, List.map_cons]
    rw [ih (n + 1) m (by omega)]

lemma enumFrom_filter_ne_eraseIdx {α : Type} :
    ∀ (l : List α) (n i : ℕ),
      ((l.enumFrom n).filter (fun p => p.1 != (n + i))).map Prod.snd = l.eraseIdx i := by
  intro l
  induction l with
  | nil => intro n i; rfl
  | cons a as ih =>
    intro n i
    cases i with
    | zero =>
      simp only [List.enumFrom, List.filter_cons, Nat.add_zero, bne_self_eq_false,
        Bool.false_eq_true, if_false, List.eraseIdx]
      exact enumFrom_filter_ne_small as (n + 1) n (by omega)
    | succ k =>
      have harith : n + (k + 1) = (n + 1) + k := by omega
      have hne : ((n : ℕ) != (n + 1 + k)) = true := by
        simp only [bne_iff_ne, ne_eq]
        omega
      simp only [List.enumFrom, List.filter_cons, harith, hne, if_true, List.map_cons,
        List.eraseIdx]
      rw [ih (n + 1) k]

lemma removeIdxJs_eq_eraseIdx {α : Type} (l : List α) (i : ℕ) :
    removeIdxJs l i = l.eraseIdx i := by
  have h := enumFrom_filter_ne_eraseIdx l 0 i
  simpa [removeIdxJs, List.enum] using h

lemma eraseIdx_length_formula {α : Type} :
    ∀ (l : List α) (i : ℕ),
      (l.eraseIdx i).length = l.length - (if i < l.length then 1 else 0) := by
  intro l
  induction l with
  | nil => intro i; rfl
  | cons a as ih =>
    intro i
    cases i with
    | zero => simp [List.eraseIdx]
    | succ k =>
      simp only [List.eraseIdx, List.length_cons, ih k]
      by_cases hk : k < as.length
      · simp [hk, Nat.succ_lt_succ hk]
        omega
      · have : ¬(k + 1 < as.length + 1) := by omega
        simp [hk, this]

lemma reach_length {newUrl : JsFile → String} {s : AppState}
    (h : useConversion.Reach newUrl s) :
    s.selectedFiles.length = s.previewUrls.length := by
  induction h with
  | init => rfl
  | add files _ ih =>
    simp [useConversion.addFiles, appReducer, useConversion.generatePreviewUrls, ih]
  | set files _ ih =>
    simp [useConversion.setFiles, appReducer, useConversion.generatePreviewUrls]
  | remove i _ ih =>
    simp only [useConversion.removeFile, appReducer, removeIdxJs_eq_eraseIdx,
      eraseIdx_length_formula, ih]
  | clear _ ih => rfl
  | reset _ ih => rfl
  | resetKeep _ ih => rfl
  | setConv c sf tf _ ih => simpa [appReducer] using ih
  | start _ ih => simpa [appReducer] using ih
  | prog p _ ih => simpa [appReducer] using ih
  | complete rs _ ih => simpa [appReducer] using ih

lemma reach_previews_not_empty_string {newUrl : JsFile → String}
    (hu : ∀ f, newUrl f ≠ "") {s : AppState} (h : useConversion.Reach newUrl s) :
    ∀ p ∈ s.previewUrls, p ≠ some "" := by
  induction h with
  | init => intro p hp; simp [initialState] at hp
  | add files _ ih =>
    intro p hp
    simp only [useConversion.addFiles, appReducer, Option.getD_some, List.mem_append] at hp
    rcases hp with hp | hp
    · exact ih p hp
    · simp only [useConversion.generatePreviewUrls, List.mem_map] at hp
      obtain ⟨f, _, hf⟩ := hp
      subst hf
      split
      · intro hcon
        exact hu f (Option.some.inj hcon)
      · exact Option.noConfusion
  | set files _ ih =>
    intro p hp
    simp only [useConversion.setFiles, appReducer, Option.getD_some] at hp
    simp only [useConversion.generatePreviewUrls, List.mem_map] at hp
    obtain ⟨f, _, hf⟩ := hp
    subst hf
    split
    · intro hcon
      exact hu f (Option.some.inj hcon)
    · exact Option.noConfusion
  | remove i _ ih =>
    intro p hp
    simp only [useConversion.removeFile, appReducer, removeIdxJs_eq_eraseIdx] at hp
    exact ih p ((List.eraseIdx_sublist _ i).subset hp)
  | clear _ ih => intro p hp; simp [useConversion.clearFiles, appReducer] at hp
  | reset _ ih => intro p hp; simp [useConversion.resetConversion, appReducer] at hp
  | resetKeep _ ih =>
    intro p hp
    simp [useConversion.resetConversionKeepCategory, appReducer] at hp
  | setConv c sf tf _ ih => intro p hp; exact ih p hp
  | start _ ih => intro p hp; exact ih p hp
  | prog pr _ ih => intro p hp; exact ih p hp
  | complete rs _ ih => intro p hp; exact ih p hp

/-- Claim C8: in every session state reachable through the hook
operations the selected-files list and the preview-URL list have equal
length; the REMOVE_FILE transition at index i erases exactly the i-th
element of both lists simultaneously; and when the discarded preview
entry is a non-null URL, the removeFile hook operation passes exactly
that one URL to the revocation call, exactly once. -/
theorem C8_remove_file_aligned (newUrl : JsFile → String) (hu : ∀ f, newUrl f ≠ "")
    (s : AppState) (hs : useConversion.Reach newUrl s) :
    (s.selectedFiles.length = s.previewUrls.length) ∧
    (∀ i : ℕ,
      (appReducer s (AppAction.removeFile i)).selectedFiles = s.selectedFiles.eraseIdx i ∧
      (appReducer s (AppAction.removeFile i)).previewUrls = s.previewUrls.eraseIdx i) ∧
    (∀ (i : ℕ) (u : String), s.previewUrls.get? i = some (some u) →
      (useConversion.removeFile s i).2 = [u]) := by
  refine ⟨reach_length hs, ?_, ?_⟩
  · intro i
    exact ⟨by simp [appReducer, removeIdxJs_eq_eraseIdx],
           by simp [appReducer, removeIdxJs_eq_eraseIdx]⟩
  · intro i u hget
    have hmem : (some u) ∈ s.previewUrls := List.get?_mem hget
    have hne : u ≠ "" := by
      intro hcon
      exact reach_previews_not_empty_string hu hs (some u) hmem (by rw [hcon])
    have hie : u.isEmpty = false := by
      cases hbe : u.isEmpty
      · rfl
      · exact absurd ((String.isEmpty_iff u).mp hbe) hne
    simp only [useConversion.removeFile, hget, hie, Bool.false_eq_true, if_false]

/-- Witness for claim C8: a three-file session built by the hook keeps
both lists aligned, and removing index 1 passes exactly the one
discarded object URL to revocation. -/
theorem C8_witness :
    ((useConversion.addFiles (fun _ => "blob:preview") initialState
        [{ name := "a.jpg", type := "image/jpeg", size := 1 },
         { name := "b.jpg", type := "image/jpeg", size := 2 },
         { name := "c.jpg", type := "image/jpeg", size := 3 }]).selectedFiles.length
      = (useConversion.addFiles (fun _ => "blob:preview") initialState
        [{ name := "a.jpg", type := "image/jpeg", size := 1 },
         { name := "b.jpg", type := "image/jpeg", size := 2 },
         { name := "c.jpg", type := "image/jpeg", size := 3 }]).previewUrls.length) ∧
    (useConversion.removeFile
      (useConversion.addFiles (fun _ => "blob:preview") initialState
        [{ name := "a.jpg", type := "image/jpeg", size := 1 },
         { name := "b.jpg", type := "image/jpeg", size := 2 },
         { name := "c.jpg", type := "image/jpeg", size := 3 }]) 1).2 = ["blob:preview"] := by
  have hu : ∀ f : JsFile, (fun _ : JsFile => "blob:preview") f ≠ "" := by
    intro f
    show ("blob:preview" : String) ≠ ""
    decide
  have h := C8_remove_file_aligned (fun _ => "blob:preview") hu
    (useConversion.addFiles (fun _ => "blob:preview") initialState
      [{ name := "a.jpg", type := "image/jpeg", size := 1 },
       { name := "b.jpg", type := "image/jpeg", size := 2 },
       { name := "c.jpg", type := "image/jpeg", size := 3 }])
    (useConversion.Reach.add _ useConversion.Reach.init)
  exact ⟨h.1, h.2.2 1 "blob:preview" (by decide)⟩

end FileAlchemy
